import Mathlib

/-!
Verification of the run.Group start/stop orchestrator (src/group.go, src/unnamed/part_000).

The Go code is concurrent; the embedding makes the nondeterminism explicit.
Every registered Start/Stop function is modelled by the behaviour it exhibits in
one fixed execution: the failure it posts (if any) and the instant it finishes,
measured in abstract time units from the entry of its phase.  A context is
modelled by the instant its Done channel fires (none = never).  A select over
several channels is resolved in favour of any arm whose firing instant is
minimal; when several arms fire at the same instant the choice is free, exactly
as a Go select over several simultaneously ready channels picks among them
nondeterministically.  The chosen arm and the observed posting order of the
failure channels are inputs of the model, constrained by well-formedness
predicates below.
-/

namespace Run

/-- Model of a Go error value as produced by this package: an error built by
errors.New with a message, one of the two package sentinels, or a composite
built by errors.Join over a non-empty list of non-nil errors. -/
inductive Err where
  | mk (msg : String)
  | startDeadline
  | stopDeadline
  | join (errs : List Err)

/-- ErrStartContextDeadlineExceeded of src/group.go line 11. -/
def ErrStartContextDeadlineExceeded : Err := Err.startDeadline

/-- ErrStopContextDeadlineExceeded of src/group.go line 14. -/
def ErrStopContextDeadlineExceeded : Err := Err.stopDeadline

mutual

/-- The Error() text of an error value.  A join renders every member on its own
line, in order, separated by a single newline, as errors.Join does. -/
def Err.message : Err → String
  | Err.mk s => s
  | Err.startDeadline => "start context deadline exceeded"
  | Err.stopDeadline => "stop context deadline exceeded"
  | Err.join es => Err.messageList es

/-- Error() text of the member list of a join: the messages separated by
newlines. -/
def Err.messageList : List Err → String
  | [] => ""
  | [e] => Err.message e
  | e :: e2 :: es => Err.message e ++ "\n" ++ Err.messageList (e2 :: es)

end

/-- The two sentinel identities of the package. -/
inductive Sentinel where
  | start
  | stop
deriving DecidableEq

mutual

/-- Model of errors.Is(e, sentinel): identity holds at the sentinel itself and
is searched recursively through the members of a join (errors.Join exposes its
members through Unwrap). -/
def Err.hasSentinel (s : Sentinel) : Err → Bool
  | Err.mk _ => false
  | Err.startDeadline => decide (s = Sentinel.start)
  | Err.stopDeadline => decide (s = Sentinel.stop)
  | Err.join es => Err.listHasSentinel s es

/-- Sentinel search through a member list of a join. -/
def Err.listHasSentinel (s : Sentinel) : List Err → Bool
  | [] => false
  | e :: es => Err.hasSentinel s e || Err.listHasSentinel s es

end

/-- Model of errors.Join over a list of non-nil errors: nil when the list is
empty, otherwise the composite of the whole list. -/
def joinErrors (es : List Err) : Option Err :=
  if es.isEmpty then none else some (Err.join es)

/-- Reference rendering used to state the aggregation contract: each string on
its own line, in order. -/
def renderLines : List String → String
  | [] => ""
  | [a] => a
  | a :: a2 :: rest => a ++ "\n" ++ renderLines (a2 :: rest)

/-! ### Abstract time -/

/-- Strict comparison of firing instants, none meaning never (infinity). -/
def timeLtB : Option Nat → Option Nat → Bool
  | none, _ => false
  | some _, none => true
  | some a, some b => decide (a < b)

/-- Non-strict comparison of firing instants. -/
def timeLEB (a b : Option Nat) : Bool := !(timeLtB b a)

/-- Done instant of context.WithTimeout(parent, d) created at instant zero of
the current phase: the parent firing or the deadline, whichever is earlier. -/
def withTimeout (parent : Option Nat) (d : Nat) : Option Nat :=
  match parent with
  | none => some d
  | some p => some (min p d)

/-! ### The Group and one execution of it -/

/-- Behaviour of one registered Start or Stop function in the modelled
execution: the failure it returns (none on success) and the instant it
finishes, counted from the entry of its phase. -/
structure Worker where
  res : Option Err
  t : Nat

/-- The Group of src/group.go: configured timeouts and the registered start and
stop functions, each given by its behaviour in the modelled execution. -/
structure Group where
  startTimeout : Nat
  stopTimeout : Nat
  starters : List Worker
  stoppers : List Worker

/-- NewGroup with default options (part_000: DefaultTimeout for both phases,
15 time units). -/
def NewGroup : Group := ⟨15, 15, [], []⟩

/-- WithStartTimeout option of part_000 applied to a group. -/
def Group.withStartTimeout (g : Group) (d : Nat) : Group :=
  { g with startTimeout := d }

/-- WithStopTimeout option of part_000 applied to a group. -/
def Group.withStopTimeout (g : Group) (d : Nat) : Group :=
  { g with stopTimeout := d }

/-- Add registers a start and a stop function as a pair (src/group.go Add). -/
def Group.add (g : Group) (start stop : Worker) : Group :=
  { g with starters := g.starters ++ [start], stoppers := g.stoppers ++ [stop] }

/-- Instant at which the done channel of the start phase closes: when the last
starter worker has finished (immediately when there are none). -/
def Group.startDoneTime (g : Group) : Nat :=
  (g.starters.map Worker.t).foldr max 0

/-- Instant at which the done channel of the stop phase closes, from stop
entry: when the last stopper worker has finished. -/
def Group.stopDoneTime (g : Group) : Nat :=
  (g.stoppers.map Worker.t).foldr max 0

/-- Done instant of startCtx := context.WithTimeout(ctx, startTimeout)
(src/group.go line 62): the external signal also cancels startCtx, so startCtx
fires at the earlier of the external instant and the start deadline. -/
def Group.startCtxDone (g : Group) (tExt : Option Nat) : Option Nat :=
  withTimeout tExt g.startTimeout

/-- Done instant of stopCtx := context.WithTimeout(context.Background(),
stopTimeout) (src/group.go line 124): a fresh signal, no parent, so it fires
exactly at the configured stop deadline. -/
def Group.stopCtxDone (g : Group) : Option Nat :=
  withTimeout none g.stopTimeout

/-- The three arms of the select in Wait (src/group.go lines 86-99). -/
inductive StartArm where
  | extCancel
  | startDeadline
  | allDone
deriving DecidableEq

/-- Firing instant of each arm of the select in Wait. -/
def Group.armTime (g : Group) (tExt : Option Nat) : StartArm → Option Nat
  | StartArm.extCancel => tExt
  | StartArm.startDeadline => g.startCtxDone tExt
  | StartArm.allDone => some g.startDoneTime

/-- A resolution of the select in Wait is possible exactly when the instant of
the chosen arm is minimal among the three arms. -/
def Group.selValid (g : Group) (tExt : Option Nat) (sel : StartArm) : Bool :=
  [StartArm.extCancel, StartArm.startDeadline, StartArm.allDone].all
    (fun a => timeLEB (g.armTime tExt sel) (g.armTime tExt a))

/-- One resolution of the races of a single execution of Wait. -/
structure Sched where
  /-- Instant at which the external signal of the caller fires, none = never. -/
  tExt : Option Nat
  /-- The arm taken by the select in Wait. -/
  sel : StartArm
  /-- Contents of the start failure channel in posting order, as observed by
  the draining loop. -/
  startPosted : List Err
  /-- Contents of the stop failure channel in posting order, each failure with
  the instant (from stop entry) at which it was posted. -/
  stopPosted : List (Err × Nat)
  /-- Tie-break of the select in stop when the stop deadline and the last
  stopper finish at the same instant: true picks the deadline arm. -/
  stopSel : Bool

/-- The start failure channel holds exactly the failures of the starters, in
some order. -/
def startPostedWF (g : Group) (s : Sched) : Prop :=
  s.startPosted.Perm (g.starters.filterMap Worker.res)

/-- The stop failure channel holds exactly the failures of the stoppers, in
some order, each posted no later than the instant all stoppers finished. -/
def stopPostedWF (g : Group) (s : Sched) : Prop :=
  (s.stopPosted.map Prod.fst).Perm (g.stoppers.filterMap Worker.res) ∧
  s.stopPosted.all (fun p => decide (p.2 ≤ g.stopDoneTime)) = true

/-- Whether the select in stop (src/group.go lines 152-156) takes the deadline
arm: the stop deadline fires strictly before the last stopper finishes, or at
the same instant with the tie resolved to the deadline. -/
def Group.stopDeadlineWins (g : Group) (stopSel : Bool) : Bool :=
  timeLtB g.stopCtxDone (some g.stopDoneTime) ||
    (g.stopCtxDone == some g.stopDoneTime && stopSel)

/-- Model of Group.stop (src/group.go lines 123-167).  If the deadline arm is
taken the stop-timeout sentinel is recorded first; then the loop over the
failure channel runs to channel close — the channel is closed only after every
stopper worker has finished, so every posted failure is appended, in posting
order.  The result is errors.Join of what was collected. -/
def Group.stop (g : Group) (stopPosted : List (Err × Nat)) (stopSel : Bool) :
    Option Err :=
  joinErrors
    ((if g.stopDeadlineWins stopSel then [ErrStopContextDeadlineExceeded] else [])
      ++ stopPosted.map Prod.fst)

/-- Model of Group.Wait (src/group.go lines 61-117) for a returning execution.
Returns the outcome together with the number of times Group.stop was invoked
on the taken path.  The external-cancel arm returns exactly the stop result.
The startCtx arm joins the start-timeout sentinel in front of a non-nil stop
result and returns the bare sentinel otherwise.  The all-done arm drains the
start failures: if any, it stops and joins them with a non-nil stop result
appended; if none, it blocks on the external signal and then returns exactly
the stop result. -/
def Group.wait (g : Group) (s : Sched) : Option Err × Nat :=
  match s.sel with
  | StartArm.extCancel => (g.stop s.stopPosted s.stopSel, 1)
  | StartArm.startDeadline =>
    match g.stop s.stopPosted s.stopSel with
    | some e => (some (Err.join [ErrStartContextDeadlineExceeded, e]), 1)
    | none => (some ErrStartContextDeadlineExceeded, 1)
  | StartArm.allDone =>
    if s.startPosted.isEmpty then
      (g.stop s.stopPosted s.stopSel, 1)
    else
      (joinErrors (s.startPosted ++ (g.stop s.stopPosted s.stopSel).toList), 1)

/-- Modelled from the spec: the non-blocking drain the specification ascribes
to the stop phase — on timeout only failures already buffered at the stop
deadline are collected, workers still running are not waited for.  The source
differs: its drain loops to channel close.  This definition exists only to be
compared against Group.stop. -/
def Group.stopSpecDrain (g : Group) (stopPosted : List (Err × Nat))
    (stopSel : Bool) : Option Err :=
  if g.stopDeadlineWins stopSel then
    joinErrors (ErrStopContextDeadlineExceeded ::
      (stopPosted.filter (fun p => decide (p.2 ≤ g.stopTimeout))).map Prod.fst)
  else
    joinErrors (stopPosted.map Prod.fst)

/-! ### Concrete executions used to instantiate the claims -/

/-- Execution for the cancellation/deadline tie: external signal already fired
at instant 0, start deadline 15, one starter still running at instant 10, one
stopper succeeding immediately. -/
def c1Group : Group := ⟨15, 15, [⟨none, 10⟩], [⟨none, 0⟩]⟩

/-- Race resolution taking the startCtx arm of the tie at instant 0. -/
def c1Sched : Sched := ⟨some 0, StartArm.startDeadline, [], [], false⟩

/-- Execution for the stop-drain claim: stop deadline 5, one stopper that
fails with message late, posting at instant 7 and finishing at instant 10. -/
def c2Group : Group := ⟨15, 5, [], [⟨some (Err.mk "late"), 10⟩]⟩

/-- Stop failure channel contents of that execution: the late failure, posted
at instant 7, after the stop deadline at instant 5. -/
def c2Posted : List (Err × Nat) := [(Err.mk "late", 7)]

/-- Full race resolution of the stop-drain execution. -/
def c2Sched : Sched := ⟨none, StartArm.extCancel, [], c2Posted, false⟩

/-- Execution used to instantiate the start-deadline claim: start deadline 5,
one starter still running at instant 10, external signal at instant 8. -/
def c3Group : Group := ⟨5, 15, [⟨none, 10⟩], []⟩

/-- Race resolution for the start-deadline claim instance. -/
def c3Sched : Sched := ⟨some 8, StartArm.startDeadline, [], [], false⟩

/-- Execution used to instantiate the start-failure claim: one starter fails
with message boom at instant 1, one stopper succeeds. -/
def c4Group : Group := ⟨15, 15, [⟨some (Err.mk "boom"), 1⟩], [⟨none, 2⟩]⟩

/-- Race resolution for the start-failure claim instance. -/
def c4Sched : Sched := ⟨some 5, StartArm.allDone, [Err.mk "boom"], [], false⟩

/-- Execution refuting the all-success claim: starter succeeds immediately,
stopper succeeds only at instant 10, past the stop deadline 5; the external
signal fires at instant 1, before both configured deadlines. -/
def c5Group : Group := ⟨15, 5, [⟨none, 0⟩], [⟨none, 10⟩]⟩

/-- Race resolution of the all-success refutation: the all-done arm fires at
instant 0, before the external signal. -/
def c5Sched : Sched := ⟨some 1, StartArm.allDone, [], [], false⟩

/-- Execution confirming the amended all-success claim: both workers succeed
promptly, external signal at instant 1. -/
def c5wGroup : Group := ⟨15, 15, [⟨none, 2⟩], [⟨none, 3⟩]⟩

/-- Race resolution of the amended all-success instance: the external arm of
the select is taken. -/
def c5wSched : Sched := ⟨some 1, StartArm.extCancel, [], [], false⟩

/-- Race resolution for the empty group called with an already-cancelled
external signal: all three arms fire at instant 0 and the select takes the
startCtx arm. -/
def c6Sched : Sched := ⟨some 0, StartArm.startDeadline, [], [], false⟩

/-- Execution used to instantiate the aggregated-stop-drain theorem and the
success-path claim: one stopper failing with message sf at instant 1, one
starter succeeding at instant 2, external signal at instant 9. -/
def c10Group : Group := ⟨15, 15, [⟨none, 2⟩], [⟨some (Err.mk "sf"), 1⟩]⟩

/-- Race resolution for the success-path claim instance. -/
def c10Sched : Sched := ⟨some 9, StartArm.allDone, [], [(Err.mk "sf", 1)], false⟩

/-! ### Basic lemmas about the error model -/

/-- A non-nil result of the aggregator is the composite of exactly the list it
was given. -/
theorem joinErrors_eq_some {l : List Err} {e : Err} (h : joinErrors l = some e) :
    e = Err.join l := by
  unfold joinErrors at h
  by_cases hl : l.isEmpty <;> simp [hl] at h
  exact h.symm

/-- The rendering of a member list is exactly the member messages, each on its
own line, in order. -/
theorem Err.messageList_eq : (es : List Err) →
    Err.messageList es = renderLines (es.map Err.message)
  | [] => by simp [Err.messageList, renderLines]
  | [e] => by simp [Err.messageList, renderLines]
  | e :: e2 :: rest => by
    rw [show (e :: e2 :: rest).map Err.message
        = Err.message e :: Err.message e2 :: rest.map Err.message from rfl]
    rw [Err.messageList, renderLines, Err.messageList_eq (e2 :: rest)]
    rfl

/-- Sentinel search through a list is a disjunction over the members. -/
theorem Err.listHasSentinel_eq (s : Sentinel) : (es : List Err) →
    Err.listHasSentinel s es = es.any (Err.hasSentinel s)
  | [] => by simp [Err.listHasSentinel]
  | e :: rest => by
    rw [Err.listHasSentinel, Err.listHasSentinel_eq s rest, List.any_cons]

/-- Sentinel search through a join is a disjunction over its members. -/
theorem Err.hasSentinel_join (s : Sentinel) (es : List Err) :
    Err.hasSentinel s (Err.join es) = es.any (Err.hasSentinel s) := by
  rw [Err.hasSentinel, Err.listHasSentinel_eq]

/-! ### Which arm a valid selection must take -/

/-- When the last starter finishes strictly before the external signal and
strictly before the start deadline, the only valid selection is the all-done
arm. -/
theorem selValid_forces_allDone (g : Group) (tExt : Option Nat) (sel : StartArm)
    (h1 : timeLtB (some g.startDoneTime) tExt = true)
    (h2 : g.startDoneTime < g.startTimeout)
    (hsel : g.selValid tExt sel = true) : sel = StartArm.allDone := by
  cases sel with
  | allDone => rfl
  | extCancel =>
    exfalso
    simp only [Group.selValid, List.all_cons, List.all_nil, Bool.and_true,
      Bool.and_eq_true, Group.armTime, timeLEB, Bool.not_eq_true'] at hsel
    rw [h1] at hsel
    exact Bool.noConfusion hsel.2.2
  | startDeadline =>
    exfalso
    simp only [Group.selValid, List.all_cons, List.all_nil, Bool.and_true,
      Bool.and_eq_true, Group.armTime, timeLEB, Bool.not_eq_true'] at hsel
    have h3 := hsel.2.2
    cases tExt with
    | none =>
      simp [Group.startCtxDone, withTimeout, timeLtB, h2] at h3
    | some x =>
      simp only [timeLtB, decide_eq_true_eq] at h1
      simp only [Group.startCtxDone, withTimeout, timeLtB,
        decide_eq_false_iff_not] at h3
      omega

/-- When the start deadline fires strictly before the external signal and
strictly before the last starter finishes, the only valid selection is the
deadline arm. -/
theorem selValid_forces_startDeadline (g : Group) (tExt : Option Nat)
    (sel : StartArm)
    (h1 : timeLtB (some g.startTimeout) tExt = true)
    (h2 : g.startTimeout < g.startDoneTime)
    (hsel : g.selValid tExt sel = true) : sel = StartArm.startDeadline := by
  cases sel with
  | startDeadline => rfl
  | extCancel =>
    exfalso
    simp only [Group.selValid, List.all_cons, List.all_nil, Bool.and_true,
      Bool.and_eq_true, Group.armTime, timeLEB, Bool.not_eq_true'] at hsel
    have h3 := hsel.2.1
    cases tExt with
    | none => simp [Group.startCtxDone, withTimeout, timeLtB] at h3
    | some x =>
      simp only [timeLtB, decide_eq_true_eq] at h1
      simp only [Group.startCtxDone, withTimeout, timeLtB,
        decide_eq_false_iff_not] at h3
      omega
  | allDone =>
    exfalso
    simp only [Group.selValid, List.all_cons, List.all_nil, Bool.and_true,
      Bool.and_eq_true, Group.armTime, timeLEB, Bool.not_eq_true'] at hsel
    have h3 := hsel.2.1
    cases tExt with
    | none =>
      simp [Group.startCtxDone, withTimeout, timeLtB, h2] at h3
    | some x =>
      simp only [timeLtB, decide_eq_true_eq] at h1
      simp only [Group.startCtxDone, withTimeout, timeLtB,
        decide_eq_false_iff_not] at h3
      omega

/-! ### Claims -/

/-- C3: in every execution of Wait in which the start deadline fires strictly
before the external signal and strictly before the last initializer worker
finishes, the select must take the deadline arm, and the outcome is the
start-timeout sentinel joined in front of the stop result when the stop phase
fails, and exactly the bare start-timeout sentinel when the stop phase returns
no failure. -/
theorem wait_start_deadline_first_outcome (g : Group) (s : Sched)
    (hext : timeLtB (some g.startTimeout) s.tExt = true)
    (hdone : g.startTimeout < g.startDoneTime)
    (hsel : g.selValid s.tExt s.sel = true) :
    s.sel = StartArm.startDeadline ∧
    (g.wait s).1 = (match g.stop s.stopPosted s.stopSel with
      | some e => some (Err.join [ErrStartContextDeadlineExceeded, e])
      | none => some ErrStartContextDeadlineExceeded) := by
  have hs := selValid_forces_startDeadline g s.tExt s.sel hext hdone hsel
  refine ⟨hs, ?_⟩
  cases hstop : g.stop s.stopPosted s.stopSel <;>
    simp [Group.wait, hs, hstop]

/-- Witness for C3: at the concrete execution the stop phase returns no
failure and the outcome is exactly the bare start-timeout sentinel. -/
theorem wait_start_deadline_first_outcome_witness :
    (c3Group.wait c3Sched).1 = some ErrStartContextDeadlineExceeded := by
  have h := wait_start_deadline_first_outcome c3Group c3Sched (by decide)
    (by decide) (by decide)
  rw [h.2]
  rfl

/-- C4: in every execution of Wait in which the last initializer worker
finishes strictly before the external signal and strictly before the start
deadline, and at least one failure was posted, the select must take the
all-done arm, the stop phase is invoked exactly once, and the outcome joins
the collected start failures in posting order with the stop result (if any)
appended after them. -/
theorem wait_start_failures_outcome (g : Group) (s : Sched)
    (hfail : s.startPosted ≠ [])
    (hwf : startPostedWF g s)
    (hext : timeLtB (some g.startDoneTime) s.tExt = true)
    (hdl : g.startDoneTime < g.startTimeout)
    (hsel : g.selValid s.tExt s.sel = true) :
    s.sel = StartArm.allDone ∧
    (g.wait s).2 = 1 ∧
    (g.wait s).1
      = joinErrors (s.startPosted ++ (g.stop s.stopPosted s.stopSel).toList) := by
  have hs := selValid_forces_allDone g s.tExt s.sel hext hdl hsel
  have hne : s.startPosted.isEmpty = false := by
    cases hp : s.startPosted with
    | nil => exact absurd hp hfail
    | cons a t => rfl
  exact ⟨hs, by simp [Group.wait, hs, hne], by simp [Group.wait, hs, hne]⟩

/-- Witness for C4: at the concrete execution the outcome is the composite of
the single start failure, and the stop phase ran exactly once. -/
theorem wait_start_failures_outcome_witness :
    (c4Group.wait c4Sched).2 = 1 ∧
    (c4Group.wait c4Sched).1 = some (Err.join [Err.mk "boom"]) := by
  have h := wait_start_failures_outcome c4Group c4Sched (by simp [c4Sched])
    (List.Perm.refl _) (by decide) (by decide) (by decide)
  exact ⟨h.2.1, by rw [h.2.2]; rfl⟩

/-- C9: on every return path of Wait — external cancellation, start deadline,
start failures, or clean start followed by cancellation — the stop phase is
invoked exactly once. -/
theorem wait_invokes_stop_exactly_once (g : Group) (s : Sched) :
    (g.wait s).2 = 1 := by
  rcases s with ⟨tExt, sel, sp, stp, ss⟩
  cases sel with
  | extCancel => rfl
  | startDeadline => cases h : g.stop stp ss <;> simp [Group.wait, h]
  | allDone => by_cases h : sp.isEmpty <;> simp [Group.wait, h]

/-- C1 (code bug): in the c1 execution the external signal fires at instant 0,
strictly before the start deadline (15) and before the starter finishes (10),
yet taking the startCtx arm is a valid resolution of the select — cancelling
the caller context cancels the derived startCtx at the same instant — and Wait
then returns the start-timeout sentinel even though the stop phase returned no
failure, instead of exactly the stop result without any start-timeout
marker. -/
theorem wait_extCancel_tie_returns_start_marker :
    timeLtB (some 0) (some c1Group.startTimeout) = true ∧
    timeLtB (some 0) (some c1Group.startDoneTime) = true ∧
    c1Group.selValid (some 0) StartArm.startDeadline = true ∧
    c1Group.stop c1Sched.stopPosted c1Sched.stopSel = none ∧
    (c1Group.wait c1Sched).1 = some ErrStartContextDeadlineExceeded ∧
    Err.hasSentinel Sentinel.start ErrStartContextDeadlineExceeded = true := by
  refine ⟨by decide, by decide, by decide, rfl, rfl, ?_⟩
  simp [ErrStartContextDeadlineExceeded, Err.hasSentinel]

/-- C6 (code bug): for the empty group with the external signal already
cancelled at entry, all three arms of the select in Wait are ready at instant
0, so the startCtx arm is a valid resolution — and then Wait returns the
start-timeout sentinel instead of no failure. -/
theorem wait_empty_cancelled_returns_start_marker :
    NewGroup.starters = [] ∧
    NewGroup.stoppers = [] ∧
    NewGroup.selValid (some 0) StartArm.startDeadline = true ∧
    (NewGroup.wait c6Sched).1 = some ErrStartContextDeadlineExceeded ∧
    (NewGroup.wait c6Sched).1 ≠ none := by
  refine ⟨rfl, rfl, by decide, rfl, ?_⟩
  intro h
  rw [show (NewGroup.wait c6Sched).1
      = some ErrStartContextDeadlineExceeded from rfl] at h
  exact Option.noConfusion h

/-- C7: the stop phase always runs under a fresh deadline signal built from
the background context: its done instant is exactly the configured stop
deadline, unchanged by the start timeout, and the whole of Wait — hence the
stop invocation inside it — is insensitive to the instant at which the
external signal of the caller fires, so shutdown proceeds bounded only by the
stop deadline even when the caller context has already expired. -/
theorem stop_fresh_independent_deadline (g : Group) (d : Nat)
    (t1 t2 : Option Nat) (sel : StartArm) (sp : List Err)
    (stp : List (Err × Nat)) (ss : Bool) :
    g.stopCtxDone = withTimeout none g.stopTimeout ∧
    g.stopCtxDone = some g.stopTimeout ∧
    (g.withStartTimeout d).stopCtxDone = g.stopCtxDone ∧
    (g.withStartTimeout d).stop stp ss = g.stop stp ss ∧
    g.wait ⟨t1, sel, sp, stp, ss⟩ = g.wait ⟨t2, sel, sp, stp, ss⟩ :=
  ⟨rfl, rfl, rfl, rfl, rfl⟩

/-- C2 counterexample: in the c2 execution the stop deadline (5) fires before
the stopper finishes (10), and a failure posted at instant 7 — after the
deadline, so not buffered at that moment — still appears in the result of
stop, because the drain loops until the failure channel is closed after the
last worker finishes.  The result therefore differs from the claimed
stop-timeout-marker-plus-already-buffered-failures value, here the bare
marker. -/
theorem stop_timeout_drain_counterexample :
    Group.stopDeadlineWins c2Group false = true ∧
    c2Posted.all (fun p => decide (c2Group.stopTimeout < p.2)) = true ∧
    stopPostedWF c2Group c2Sched ∧
    c2Group.stop c2Posted false
      = some (Err.join [ErrStopContextDeadlineExceeded, Err.mk "late"]) ∧
    Group.stopSpecDrain c2Group c2Posted false
      = some (Err.join [ErrStopContextDeadlineExceeded]) ∧
    (c2Group.stop c2Posted false).map Err.message
      ≠ (Group.stopSpecDrain c2Group c2Posted false).map Err.message := by
  refine ⟨by decide, by decide, ⟨List.Perm.refl _, by decide⟩, rfl, rfl, ?_⟩
  have h1 : (c2Group.stop c2Posted false).map Err.message
      = some ("stop context deadline exceeded" ++ "\n" ++ "late") := by
    rw [show c2Group.stop c2Posted false
        = some (Err.join [ErrStopContextDeadlineExceeded, Err.mk "late"]) from rfl]
    simp [ErrStopContextDeadlineExceeded, Err.message, Err.messageList]
  have h2 : (Group.stopSpecDrain c2Group c2Posted false).map Err.message
      = some "stop context deadline exceeded" := by
    rw [show Group.stopSpecDrain c2Group c2Posted false
        = some (Err.join [ErrStopContextDeadlineExceeded]) from rfl]
    simp [ErrStopContextDeadlineExceeded, Err.message, Err.messageList]
  rw [h1, h2]
  intro h
  exact absurd (Option.some.inj h) (by decide)

/-- C2 amended: when the stop deadline arm is taken, the result of stop is the
stop-timeout sentinel first, followed by every failure posted by the finalizer
workers, in posting order — the drain loops until the failure channel closes,
which happens only after the last finalizer worker has finished. -/
theorem stop_timeout_collects_all_posted (g : Group)
    (stopPosted : List (Err × Nat)) (stopSel : Bool)
    (h : g.stopDeadlineWins stopSel = true) :
    g.stop stopPosted stopSel
      = some (Err.join
          (ErrStopContextDeadlineExceeded :: stopPosted.map Prod.fst)) := by
  simp [Group.stop, h, joinErrors]

/-- Witness for the amended stop-drain theorem at the c2 execution. -/
theorem stop_timeout_collects_all_posted_witness :
    c2Group.stop c2Posted false
      = some (Err.join [ErrStopContextDeadlineExceeded, Err.mk "late"]) := by
  have h := stop_timeout_collects_all_posted c2Group c2Posted false (by decide)
  exact h

/-- C8: the aggregator maps the empty failure sequence to nil and a non-empty
sequence to the composite of exactly that sequence; the composite renders as
the member messages each on its own line in the order supplied; the two
sentinels have their fixed texts; and sentinel identity is preserved through a
composite — identity search succeeds on a composite exactly when it succeeds
on some member, and the two sentinels are distinguishable from each other by
identity, not only by text. -/
theorem error_aggregation_contract (es : List Err) (h : es ≠ []) :
    joinErrors ([] : List Err) = none ∧
    joinErrors es = some (Err.join es) ∧
    Err.message (Err.join es) = renderLines (es.map Err.message) ∧
    Err.message ErrStartContextDeadlineExceeded
      = "start context deadline exceeded" ∧
    Err.message ErrStopContextDeadlineExceeded
      = "stop context deadline exceeded" ∧
    Err.hasSentinel Sentinel.start (Err.join es)
      = es.any (Err.hasSentinel Sentinel.start) ∧
    Err.hasSentinel Sentinel.stop (Err.join es)
      = es.any (Err.hasSentinel Sentinel.stop) ∧
    Err.hasSentinel Sentinel.start ErrStartContextDeadlineExceeded = true ∧
    Err.hasSentinel Sentinel.stop ErrStartContextDeadlineExceeded = false ∧
    Err.hasSentinel Sentinel.stop ErrStopContextDeadlineExceeded = true ∧
    Err.hasSentinel Sentinel.start ErrStopContextDeadlineExceeded = false := by
  refine ⟨rfl, ?_, ?_, by simp [ErrStartContextDeadlineExceeded, Err.message],
    by simp [ErrStopContextDeadlineExceeded, Err.message],
    Err.hasSentinel_join _ _, Err.hasSentinel_join _ _,
    by simp [ErrStartContextDeadlineExceeded, Err.hasSentinel],
    by simp [ErrStartContextDeadlineExceeded, Err.hasSentinel],
    by simp [ErrStopContextDeadlineExceeded, Err.hasSentinel],
    by simp [ErrStopContextDeadlineExceeded, Err.hasSentinel]⟩
  · unfold joinErrors
    cases es with
    | nil => exact absurd rfl h
    | cons a t => rfl
  · rw [show Err.message (Err.join es) = Err.messageList es from by
      simp [Err.message]]
    exact Err.messageList_eq es

/-- Witness for C8 at a two-element sequence: the composite and its two-line
rendering. -/
theorem error_aggregation_contract_witness :
    joinErrors [Err.mk "a", Err.mk "b"]
      = some (Err.join [Err.mk "a", Err.mk "b"]) ∧
    Err.message (Err.join [Err.mk "a", Err.mk "b"]) = "a" ++ "\n" ++ "b" := by
  have h := error_aggregation_contract [Err.mk "a", Err.mk "b"] (by simp)
  refine ⟨h.2.1, ?_⟩
  rw [h.2.2.1]
  simp [Err.message, renderLines]

/-- A list of workers that all succeed contributes no failure. -/
theorem filterMap_res_nil {l : List Worker}
    (h : l.all (fun w => w.res.isNone) = true) :
    l.filterMap Worker.res = [] := by
  rw [List.filterMap_eq_nil_iff]
  intro w hw
  have hh := List.all_eq_true.mp h w hw
  cases hr : w.res with
  | none => rfl
  | some e => rw [hr] at hh; exact Bool.noConfusion hh

/-- If every starter succeeds, the start failure channel is empty. -/
theorem startPosted_nil_of_all_success {g : Group} {s : Sched}
    (hst : g.starters.all (fun w => w.res.isNone) = true)
    (hwf : startPostedWF g s) : s.startPosted = [] := by
  have hp : s.startPosted.Perm (g.starters.filterMap Worker.res) := hwf
  rw [filterMap_res_nil hst] at hp
  exact List.perm_nil.mp hp

/-- If every stopper succeeds, the stop failure channel is empty. -/
theorem stopPosted_nil_of_all_success {g : Group} {s : Sched}
    (hsp : g.stoppers.all (fun w => w.res.isNone) = true)
    (hwf : stopPostedWF g s) : s.stopPosted = [] := by
  have hp := hwf.1
  rw [filterMap_res_nil hsp] at hp
  exact List.map_eq_nil_iff.mp (List.perm_nil.mp hp)

/-- C5 counterexample: every initializer and every finalizer succeeds and the
external signal fires at instant 1, before the start deadline (15) and before
the stop deadline (5); yet the single finalizer finishes only at instant 10,
the stop deadline arm of the stop select fires, and Wait returns the
stop-timeout sentinel instead of no failure. -/
theorem wait_all_success_slow_finalizer_counterexample :
    c5Group.starters.all (fun w => w.res.isNone) = true ∧
    c5Group.stoppers.all (fun w => w.res.isNone) = true ∧
    timeLtB c5Sched.tExt (some c5Group.startTimeout) = true ∧
    timeLtB c5Sched.tExt (some c5Group.stopTimeout) = true ∧
    c5Group.selValid c5Sched.tExt c5Sched.sel = true ∧
    startPostedWF c5Group c5Sched ∧
    stopPostedWF c5Group c5Sched ∧
    (c5Group.wait c5Sched).1
      = some (Err.join [ErrStopContextDeadlineExceeded]) ∧
    (c5Group.wait c5Sched).1 ≠ none := by
  refine ⟨rfl, rfl, by decide, by decide, by decide, List.Perm.refl _,
    ⟨List.Perm.refl _, rfl⟩, rfl, ?_⟩
  intro h
  rw [show (c5Group.wait c5Sched).1
      = some (Err.join [ErrStopContextDeadlineExceeded]) from rfl] at h
  exact Option.noConfusion h

/-- C5 amended: when every initializer and every finalizer succeeds, the last
finalizer finishes strictly before the stop deadline, the external signal
fires before the start deadline, and the select of Wait does not resolve the
simultaneous-cancellation tie to the startCtx arm, Wait returns no failure. -/
theorem wait_all_success_prompt_finalizers_no_failure (g : Group) (s : Sched)
    (hst : g.starters.all (fun w => w.res.isNone) = true)
    (hsp : g.stoppers.all (fun w => w.res.isNone) = true)
    (hwf1 : startPostedWF g s)
    (hwf2 : stopPostedWF g s)
    (hfast : g.stopDoneTime < g.stopTimeout)
    (hext : timeLtB s.tExt (some g.startTimeout) = true)
    (hsel : g.selValid s.tExt s.sel = true)
    (hnd : s.sel ≠ StartArm.startDeadline) :
    (g.wait s).1 = none := by
  have hsp0 := startPosted_nil_of_all_success hst hwf1
  have hstp0 := stopPosted_nil_of_all_success hsp hwf2
  have hne : ¬ (g.stopTimeout < g.stopDoneTime) := by omega
  have hne2 : ¬ (g.stopTimeout = g.stopDoneTime) := by omega
  have hwin : g.stopDeadlineWins s.stopSel = false := by
    simp [Group.stopDeadlineWins, Group.stopCtxDone, withTimeout, timeLtB,
      hne, hne2]
  have hstop : g.stop s.stopPosted s.stopSel = none := by
    rw [hstp0]
    simp [Group.stop, hwin, joinErrors]
  cases hs : s.sel with
  | startDeadline => exact absurd hs hnd
  | extCancel => simp [Group.wait, hs, hstop]
  | allDone => simp [Group.wait, hs, hsp0, hstop]

/-- Witness for the amended all-success claim at the c5w execution. -/
theorem wait_all_success_prompt_finalizers_no_failure_witness :
    (c5wGroup.wait c5wSched).1 = none :=
  wait_all_success_prompt_finalizers_no_failure c5wGroup c5wSched rfl rfl
    (List.Perm.refl _) ⟨List.Perm.refl _, rfl⟩ (by decide) (by decide)
    (by decide) (by decide)

/-- C10: once every initializer worker has finished, with zero failures,
strictly before the start deadline and strictly before the external signal,
the only valid selection is the all-done arm and the outcome is exactly the
stop result; the same holds for every start deadline later than the finish
instant, so the subsequent expiry of the start deadline has no effect; and
the outcome never carries the start-timeout sentinel provided no finalizer
posted that sentinel itself. -/
theorem wait_success_start_deadline_irrelevant (g : Group) (s : Sched)
    (hst : g.starters.all (fun w => w.res.isNone) = true)
    (hwf1 : startPostedWF g s)
    (hdl : g.startDoneTime < g.startTimeout)
    (hext : timeLtB (some g.startDoneTime) s.tExt = true)
    (hsel : g.selValid s.tExt s.sel = true)
    (hmk : s.stopPosted.all
      (fun p => !(Err.hasSentinel Sentinel.start p.1)) = true) :
    s.sel = StartArm.allDone ∧
    (g.wait s).1 = g.stop s.stopPosted s.stopSel ∧
    (∀ d, g.startDoneTime < d →
      (g.withStartTimeout d).selValid s.tExt StartArm.allDone = true ∧
      (∀ a, (g.withStartTimeout d).selValid s.tExt a = true →
        a = StartArm.allDone) ∧
      ((g.withStartTimeout d).wait s).1 = (g.wait s).1) ∧
    (∀ e, (g.wait s).1 = some e →
      Err.hasSentinel Sentinel.start e = false) := by
  have hs := selValid_forces_allDone g s.tExt s.sel hext hdl hsel
  have hsp0 := startPosted_nil_of_all_success hst hwf1
  have hout : (g.wait s).1 = g.stop s.stopPosted s.stopSel := by
    simp [Group.wait, hs, hsp0]
  refine ⟨hs, hout, ?_, ?_⟩
  · intro d hd
    have hdt : (g.withStartTimeout d).startDoneTime = g.startDoneTime := rfl
    have hst2 : (g.withStartTimeout d).startTimeout = d := rfl
    have hv : (g.withStartTimeout d).selValid s.tExt StartArm.allDone = true := by
      simp only [Group.selValid, List.all_cons, List.all_nil, Bool.and_true,
        Bool.and_eq_true, Group.armTime, timeLEB, Bool.not_eq_true',
        Group.startCtxDone, hdt, hst2]
      refine ⟨?_, ?_, ?_⟩
      · cases hx : s.tExt with
        | none => rfl
        | some x =>
          rw [hx] at hext
          simp only [timeLtB, decide_eq_true_eq] at hext
          simp only [timeLtB, decide_eq_false_iff_not]
          omega
      · cases hx : s.tExt with
        | none =>
          simp only [withTimeout, timeLtB, decide_eq_false_iff_not]
          omega
        | some x =>
          rw [hx] at hext
          simp only [timeLtB, decide_eq_true_eq] at hext
          simp only [withTimeout, timeLtB, decide_eq_false_iff_not]
          exact Nat.not_lt.mpr (Nat.le_min.mpr ⟨by omega, by omega⟩)
      · simp [timeLtB]
    refine ⟨hv, ?_, rfl⟩
    intro a ha
    exact selValid_forces_allDone (g.withStartTimeout d) s.tExt a hext hd ha
  · intro e he
    rw [hout] at he
    have hej := joinErrors_eq_some (show joinErrors
      ((if g.stopDeadlineWins s.stopSel then [ErrStopContextDeadlineExceeded]
        else []) ++ s.stopPosted.map Prod.fst) = some e from he)
    rw [hej, Err.hasSentinel_join, List.any_append, Bool.or_eq_false_iff]
    constructor
    · by_cases hw : g.stopDeadlineWins s.stopSel <;>
        simp [hw, Err.hasSentinel, ErrStopContextDeadlineExceeded]
    · rw [Bool.eq_false_iff]
      intro hc
      obtain ⟨b, hb, hbs⟩ := List.any_eq_true.mp hc
      obtain ⟨p, hp, hpb⟩ := List.mem_map.mp hb
      have hall := List.all_eq_true.mp hmk p hp
      rw [Bool.not_eq_true'] at hall
      rw [← hpb] at hbs
      exact Bool.noConfusion (hall ▸ hbs)

/-- Witness for C10 at the c10 execution: one finalizer fails with message sf,
the outcome is exactly that composite and carries no start-timeout
sentinel. -/
theorem wait_success_start_deadline_irrelevant_witness :
    (c10Group.wait c10Sched).1 = some (Err.join [Err.mk "sf"]) ∧
    Err.hasSentinel Sentinel.start (Err.join [Err.mk "sf"]) = false := by
  have h := wait_success_start_deadline_irrelevant c10Group c10Sched rfl
    (List.Perm.refl _) (by decide) (by decide) (by decide)
    (by simp [c10Sched, Err.hasSentinel])
  refine ⟨?_, ?_⟩
  · rw [h.2.1]; rfl
  · exact h.2.2.2 _ (by rw [h.2.1]; rfl)

end Run
